import Mathlib

/-!
Verification of the endpoint health evaluation and state-reconciliation engine
of `cachet_url_monitor` (file `cachet_url_monitor/configuration.py`).

The Python class `Configuration` is shallowly embedded as a Lean structure whose
fields are the attributes set in `__init__`, and each method that a polling
cycle uses (`evaluate`, `if_trigger_update`, `push_status`, `push_metrics`,
`push_incident`) becomes a pure function.  Effects at the HTTP boundary are
made explicit: the responses the network would provide are inputs (environment
functions from the endpoint index), and the requests the code would emit are
outputs (lists of call records).
-/

/-- Modelled from the spec: the `status` module (`import status as st`) is not
under `src/`.  Section 6 of the spec fixes the severity vocabulary:
OPERATIONAL=1, PERFORMANCE_ISSUES=2, PARTIAL_OUTAGE=3, MAJOR_OUTAGE=4. -/
def COMPONENT_STATUS_OPERATIONAL : Nat := 1

/-- Modelled from the spec: see `COMPONENT_STATUS_OPERATIONAL`. -/
def COMPONENT_STATUS_PERFORMANCE_ISSUES : Nat := 2

/-- Modelled from the spec: see `COMPONENT_STATUS_OPERATIONAL`. -/
def COMPONENT_STATUS_PARTIAL_OUTAGE : Nat := 3

/-- Modelled from the spec: see `COMPONENT_STATUS_OPERATIONAL`. -/
def COMPONENT_STATUS_MAJOR_OUTAGE : Nat := 4

/-! ### Regular expressions

`Regex.__init__` compiles the configured pattern with `re.UNICODE + re.DOTALL`
and `get_status` uses `self.regex.match(response.text)`, i.e. an anchored match
at the start of the body.  We embed the pattern as an abstract syntax tree in
which `dot` is a primitive matching any single character (this is exactly the
DOTALL mode: `.` also matches a newline; `Char` being a Unicode scalar value
models the Unicode mode), and implement `re.match` as a Brzozowski-derivative
prefix matcher. -/

inductive RE : Type where
  | emp : RE
  | eps : RE
  | ch : Char → RE
  | dot : RE
  | alt : RE → RE → RE
  | cat : RE → RE → RE
  | star : RE → RE
  deriving DecidableEq

/-- The language of a pattern: `REMatch r s` holds when the pattern `r`
matches exactly the character list `s`.  `dot` matches every single
character, the newline included (DOTALL). -/
inductive REMatch : RE → List Char → Prop where
  | eps : REMatch RE.eps []
  | ch (c : Char) : REMatch (RE.ch c) [c]
  | dot (c : Char) : REMatch RE.dot [c]
  | altL {p q : RE} {s : List Char} : REMatch p s → REMatch (RE.alt p q) s
  | altR {p q : RE} {s : List Char} : REMatch q s → REMatch (RE.alt p q) s
  | cat {p q : RE} {s t : List Char} :
      REMatch p s → REMatch q t → REMatch (RE.cat p q) (s ++ t)
  | starNil {p : RE} : REMatch (RE.star p) []
  | starCons {p : RE} {s t : List Char} :
      REMatch p s → REMatch (RE.star p) t → REMatch (RE.star p) (s ++ t)

/-- Does the pattern accept the empty string? -/
def RE.nullable : RE → Bool
  | .emp => false
  | .eps => true
  | .ch _ => false
  | .dot => false
  | .alt p q => p.nullable || q.nullable
  | .cat p q => p.nullable && q.nullable
  | .star _ => true

/-- Brzozowski derivative of a pattern with respect to one character. -/
def RE.deriv : RE → Char → RE
  | .emp, _ => .emp
  | .eps, _ => .emp
  | .ch c, a => if a = c then .eps else .emp
  | .dot, _ => .eps
  | .alt p q, a => .alt (p.deriv a) (q.deriv a)
  | .cat p q, a =>
      if p.nullable then .alt (.cat (p.deriv a) q) (q.deriv a)
      else .cat (p.deriv a) q
  | .star p, a => .cat (p.deriv a) (.star p)

/-- `re.match` truthiness: does the pattern match some prefix of the input,
starting at the very beginning (anchored; not `re.search`)? -/
def RE.pmatch : RE → List Char → Bool
  | r, [] => r.nullable
  | r, c :: s => r.nullable || (r.deriv c).pmatch s

theorem nullable_sound : ∀ {r : RE}, r.nullable = true → REMatch r [] := by
  intro r
  induction r with
  | emp => intro h; simp [RE.nullable] at h
  | eps => intro h; exact REMatch.eps
  | ch c => intro h; simp [RE.nullable] at h
  | dot => intro h; simp [RE.nullable] at h
  | alt p q ihp ihq =>
      intro h
      rcases Bool.or_eq_true_iff.mp h with h' | h'
      · exact REMatch.altL (ihp h')
      · exact REMatch.altR (ihq h')
  | cat p q ihp ihq =>
      intro h
      rcases Bool.and_eq_true_iff.mp h with ⟨h1, h2⟩
      exact REMatch.cat (ihp h1) (ihq h2)
  | star p ihp => intro h; exact REMatch.starNil

theorem nullable_complete :
    ∀ {r : RE} {w : List Char}, REMatch r w → w = [] → r.nullable = true := by
  intro r w h
  induction h with
  | eps => intro h'; rfl
  | ch c => intro h'; cases h'
  | dot c => intro h'; cases h'
  | altL hm ih =>
      intro h'
      simp [RE.nullable, ih h']
  | altR hm ih =>
      intro h'
      simp [RE.nullable, ih h']
  | cat hp hq ihp ihq =>
      intro h'
      rcases List.append_eq_nil.mp h' with ⟨h1, h2⟩
      simp [RE.nullable, ihp h1, ihq h2]
  | starNil => intro h'; rfl
  | starCons hp hs ihp ihs => intro h'; rfl

theorem deriv_sound :
    ∀ (r : RE) {c : Char} {s : List Char}, REMatch (r.deriv c) s → REMatch r (c :: s) := by
  intro r
  induction r with
  | emp => intro c s h; cases h
  | eps => intro c s h; cases h
  | ch c' =>
      intro c s h
      simp only [RE.deriv] at h
      by_cases hc : c = c'
      · rw [if_pos hc] at h
        cases h
        rw [hc]
        exact REMatch.ch c'
      · rw [if_neg hc] at h
        cases h
  | dot =>
      intro c s h
      cases h
      exact REMatch.dot c
  | alt p q ihp ihq =>
      intro c s h
      cases h with
      | altL hm => exact REMatch.altL (ihp hm)
      | altR hm => exact REMatch.altR (ihq hm)
  | cat p q ihp ihq =>
      intro c s h
      simp only [RE.deriv] at h
      by_cases hn : p.nullable
      · rw [if_pos hn] at h
        cases h with
        | altL hm =>
            cases hm with
            | cat hp hq =>
                rename_i s1 s2
                exact (List.cons_append c s1 s2) ▸ REMatch.cat (ihp hp) hq
        | altR hm =>
            exact (List.nil_append (c :: s)) ▸ REMatch.cat (nullable_sound hn) (ihq hm)
      · rw [if_neg hn] at h
        cases h with
        | cat hp hq =>
            rename_i s1 s2
            exact (List.cons_append c s1 s2) ▸ REMatch.cat (ihp hp) hq
  | star p ihp =>
      intro c s h
      cases h with
      | cat hp hq =>
          rename_i s1 s2
          exact (List.cons_append c s1 s2) ▸ REMatch.starCons (ihp hp) hq

theorem deriv_complete :
    ∀ {r : RE} {w : List Char}, REMatch r w →
      ∀ {c : Char} {s : List Char}, w = c :: s → REMatch (r.deriv c) s := by
  intro r w h
  induction h with
  | eps => intro c s h'; cases h'
  | ch c' =>
      intro c s h'
      cases h'
      simp [RE.deriv]
      exact REMatch.eps
  | dot c' =>
      intro c s h'
      cases h'
      exact REMatch.eps
  | altL hm ih =>
      intro c s h'
      exact REMatch.altL (ih h')
  | altR hm ih =>
      intro c s h'
      exact REMatch.altR (ih h')
  | cat hp hq ihp ihq =>
      rename_i p q s1 s2
      intro c s h'
      simp only [RE.deriv]
      cases s1 with
      | nil =>
          have hn : p.nullable = true := nullable_complete hp rfl
          rw [if_pos hn]
          simp only [List.nil_append] at h'
          exact REMatch.altR (ihq h')
      | cons c1 s1' =>
          simp only [List.cons_append, List.cons.injEq] at h'
          obtain ⟨hc, hs⟩ := h'
          subst hc
          have hder : REMatch (p.deriv c1) s1' := ihp rfl
          by_cases hn : p.nullable
          · rw [if_pos hn]
            exact REMatch.altL (hs ▸ REMatch.cat hder hq)
          · rw [if_neg hn]
            exact hs ▸ REMatch.cat hder hq
  | starNil => intro c s h'; cases h'
  | starCons hp hs ihp ihs =>
      rename_i p s1 s2
      intro c s h'
      cases s1 with
      | nil =>
          simp only [List.nil_append] at h'
          exact ihs h'
      | cons c1 s1' =>
          simp only [List.cons_append, List.cons.injEq] at h'
          obtain ⟨hc, hrest⟩ := h'
          subst hc
          have hder : REMatch (p.deriv c1) s1' := ihp rfl
          exact hrest ▸ REMatch.cat hder hs

theorem pmatch_iff :
    ∀ (s : List Char) (r : RE),
      r.pmatch s = true ↔ ∃ p q, s = p ++ q ∧ REMatch r p := by
  intro s
  induction s with
  | nil =>
      intro r
      constructor
      · intro h
        exact ⟨[], [], rfl, nullable_sound h⟩
      · rintro ⟨p, q, hpq, hm⟩
        rcases List.append_eq_nil.mp hpq.symm with ⟨hp, hq⟩
        exact nullable_complete hm hp
  | cons c s ih =>
      intro r
      constructor
      · intro h
        rcases Bool.or_eq_true_iff.mp h with h' | h'
        · exact ⟨[], c :: s, rfl, nullable_sound h'⟩
        · obtain ⟨p, q, hpq, hm⟩ := (ih (r.deriv c)).mp h'
          exact ⟨c :: p, q, by rw [hpq, List.cons_append], deriv_sound r hm⟩
      · rintro ⟨p, q, hpq, hm⟩
        cases p with
        | nil =>
            exact Bool.or_eq_true_iff.mpr (Or.inl (nullable_complete hm rfl))
        | cons c1 p' =>
            simp only [List.cons_append, List.cons.injEq] at hpq
            obtain ⟨hc, hs⟩ := hpq
            subst hc
            refine Bool.or_eq_true_iff.mpr (Or.inr ?_)
            exact (ih (r.deriv c)).mpr ⟨p', q, hs, deriv_complete hm rfl⟩

/-! ### HTTP responses and expectations

`requests`' response objects are embedded by the three projections the code
reads: `status_code`, `text` and `elapsed.total_seconds()` (kept as a rational
number).  The class hierarchy `Expectaction` / `HttpStatus` / `Latency` /
`Regex` (the source's spelling) becomes one inductive type; an `HttpStatus`
value carries the already-parsed `status_range` pair produced by
`HttpStatus.parse_range`, and a `Regex` value carries the compiled pattern. -/

structure Response where
  status_code : Int
  text : String
  elapsed_seconds : Rat
  deriving DecidableEq

inductive Expectaction : Type where
  | httpStatus (status_range : Int × Int) : Expectaction
  | latency (threshold : Rat) : Expectaction
  | regex (pattern : RE) : Expectaction
  deriving DecidableEq

/-- Python `str.split(sep)` for a single-character separator, on character
lists (structurally recursive version of `String.splitOn`). -/
def splitChar (sep : Char) : List Char → List (List Char)
  | [] => [[]]
  | c :: rest =>
    if c = sep then [] :: splitChar sep rest
    else
      match splitChar sep rest with
      | [] => [[c]]
      | p :: ps => (c :: p) :: ps

/-- Digit accumulator for `parseIntChars`. -/
def parseDigits : List Char → Nat → Option Nat
  | [], acc => some acc
  | c :: rest, acc =>
    if c.isDigit then parseDigits rest (acc * 10 + (c.toNat - 48)) else none

/-- Python `int(s)` on a decimal numeral with an optional leading minus sign
(any other input raises `ValueError`, embedded as `none`). -/
def parseIntChars : List Char → Option Int
  | [] => none
  | c :: rest =>
    if c = Char.ofNat 45 then
      match rest with
      | [] => none
      | _ => (parseDigits rest 0).map (fun n => -(n : Int))
    else (parseDigits (c :: rest) 0).map (fun n => (n : Int))

namespace HttpStatus

/-- `HttpStatus.parse_range`: split the string on `"-"`; a single piece `v`
gives the range `(v, v+1)`, otherwise the first two pieces give `(min, max)`.
Python's `int` raises on a non-numeral, embedded as `none`. -/
def parse_range (range_string : String) : Option (Int × Int) :=
  let statuses := splitChar (Char.ofNat 45) range_string.data
  if statuses.length == 1 then
    match parseIntChars (statuses.getD 0 []) with
    | some v => some (v, v + 1)
    | none => none
  else
    match parseIntChars (statuses.getD 0 []), parseIntChars (statuses.getD 1 []) with
    | some a, some b => some (a, b)
    | _, _ => none

end HttpStatus

/-- The `get_status` method of each expectation class. -/
def Expectaction.get_status (e : Expectaction) (response : Response) : Nat :=
  match e with
  | .httpStatus status_range =>
      if response.status_code ≥ status_range.1 ∧ response.status_code < status_range.2 then
        COMPONENT_STATUS_OPERATIONAL
      else
        COMPONENT_STATUS_PARTIAL_OUTAGE
  | .latency threshold =>
      if response.elapsed_seconds ≤ threshold then
        COMPONENT_STATUS_OPERATIONAL
      else
        COMPONENT_STATUS_PERFORMANCE_ISSUES
  | .regex pattern =>
      if pattern.pmatch response.text.data then
        COMPONENT_STATUS_OPERATIONAL
      else
        COMPONENT_STATUS_PARTIAL_OUTAGE

/-- The `get_message` method of each expectation class (Python `%`-formatting
of numbers is rendered with `toString`). -/
def Expectaction.get_message (e : Expectaction) (response : Response) : String :=
  match e with
  | .httpStatus _ => "Unexpected HTTP status (" ++ toString response.status_code ++ ")"
  | .latency _ => "Latency above threshold: " ++ toString response.elapsed_seconds ++ " seconds"
  | .regex _ => "Regex did not match anything in the body"

/-- One iteration of the expectation loop in `Configuration.evaluate`
(lines 326-333): replace the running `(status, message)` only when this
expectation's status is strictly greater. -/
def severityStep (response : Response) (acc : Nat × String) (e : Expectaction) : Nat × String :=
  let status := e.get_status response
  if acc.1 < status then (status, e.get_message response) else acc

/-- The whole expectation loop of `Configuration.evaluate`: fold from
`(OPERATIONAL, "")` over the configured expectations in order. -/
def severityFold (expectations : List Expectaction) (response : Response) : Nat × String :=
  expectations.foldl (severityStep response) (COMPONENT_STATUS_OPERATIONAL, "")

theorem le_foldl_max (l : List Nat) : ∀ b : Nat, b ≤ l.foldl max b := by
  induction l with
  | nil => intro b; exact Nat.le_refl b
  | cons x l ih =>
      intro b
      exact Nat.le_trans (Nat.le_max_left b x) (ih (max b x))

theorem severityStep_fst (r : Response) (a : Nat × String) (e : Expectaction) :
    (severityStep r a e).1 = max a.1 (e.get_status r) := by
  by_cases h : a.1 < e.get_status r
  · simp only [severityStep, if_pos h]
    exact (Nat.max_eq_right (Nat.le_of_lt h)).symm
  · simp only [severityStep, if_neg h]
    exact (Nat.max_eq_left (Nat.le_of_not_lt h)).symm

theorem severityFold_fst (r : Response) :
    ∀ (es : List Expectaction) (a : Nat × String),
      (es.foldl (severityStep r) a).1 = (es.map (fun e => e.get_status r)).foldl max a.1 := by
  intro es
  induction es with
  | nil => intro a; rfl
  | cons e es ih =>
      intro a
      simp only [List.foldl_cons, List.map_cons]
      rw [ih (severityStep r a e), severityStep_fst]

theorem severityFold_fst_le (r : Response) (es : List Expectaction) (a : Nat × String) :
    a.1 ≤ (es.foldl (severityStep r) a).1 := by
  rw [severityFold_fst]
  exact le_foldl_max _ a.1

theorem severityFold_eq_of_fst_eq (r : Response) :
    ∀ (es : List Expectaction) (a : Nat × String),
      (es.foldl (severityStep r) a).1 = a.1 → es.foldl (severityStep r) a = a := by
  intro es
  induction es with
  | nil => intro a h; rfl
  | cons e es ih =>
      intro a h
      simp only [List.foldl_cons] at h ⊢
      have hle : (severityStep r a e).1 ≤ a.1 := by
        calc (severityStep r a e).1 ≤ (es.foldl (severityStep r) (severityStep r a e)).1 :=
              severityFold_fst_le r es _
          _ = a.1 := h
      have hstep : severityStep r a e = a := by
        by_cases hlt : a.1 < e.get_status r
        · exfalso
          have : (severityStep r a e).1 = e.get_status r := by
            simp only [severityStep, if_pos hlt]
          exact Nat.lt_irrefl a.1 (Nat.lt_of_lt_of_le hlt (this ▸ hle))
        · simp only [severityStep, if_neg hlt]
      rw [hstep] at h ⊢
      exact ih a h

theorem severityFold_message_of_lt (r : Response) :
    ∀ (es : List Expectaction) (a : Nat × String),
      a.1 < (es.foldl (severityStep r) a).1 →
      ∃ e, es.find? (fun e => e.get_status r == (es.foldl (severityStep r) a).1) = some e
        ∧ (es.foldl (severityStep r) a).2 = e.get_message r := by
  intro es
  induction es with
  | nil =>
      intro a h
      exact absurd h (Nat.lt_irrefl a.1)
  | cons e es ih =>
      intro a h
      simp only [List.foldl_cons] at h ⊢
      by_cases hlt : a.1 < e.get_status r
      · have hstep : severityStep r a e = (e.get_status r, e.get_message r) := by
          simp only [severityStep, if_pos hlt]
        rcases lt_or_eq_of_le (severityFold_fst_le r es (severityStep r a e)) with hcase | hcase
        · obtain ⟨e', hfind, hmsg⟩ := ih (severityStep r a e) hcase
          refine ⟨e', ?_, hmsg⟩
          rw [List.find?_cons]
          have hne : e.get_status r ≠ (es.foldl (severityStep r) (severityStep r a e)).1 := by
            have h2 : (severityStep r a e).1 = e.get_status r := by rw [hstep]
            exact Nat.ne_of_lt (h2 ▸ hcase)
          simp only [beq_eq_false_iff_ne.mpr hne]
          exact hfind
        · have hfold : es.foldl (severityStep r) (severityStep r a e) = severityStep r a e :=
            severityFold_eq_of_fst_eq r es _ hcase.symm
          refine ⟨e, ?_, ?_⟩
          · rw [List.find?_cons]
            have heq : (e.get_status r == (es.foldl (severityStep r) (severityStep r a e)).1) = true := by
              rw [hfold, hstep]
              exact beq_self_eq_true _
            simp only [heq]
          · rw [hfold, hstep]
      · have hstep : severityStep r a e = a := by
          simp only [severityStep, if_neg hlt]
        rw [hstep] at h ⊢
        obtain ⟨e', hfind, hmsg⟩ := ih a h
        refine ⟨e', ?_, hmsg⟩
        rw [List.find?_cons]
        have hne : e.get_status r ≠ (es.foldl (severityStep r) a).1 := by
          intro heq
          exact Nat.lt_irrefl _ (heq ▸ Nat.lt_of_le_of_lt (Nat.le_of_not_lt hlt) h)
        simp only [beq_eq_false_iff_ne.mpr hne]
        exact hfind

/-- The prefix of `s` strictly before the first occurrence of the (nonempty)
marker `sep`, the whole list when the marker does not occur. -/
def beforeMarker (sep : List Char) : List Char → List Char
  | [] => []
  | c :: rest =>
    if sep.isPrefixOf (c :: rest) then []
    else c :: beforeMarker sep rest

/-- Python `text.split(sep)[0]` for a nonempty separator: the substring
before the first occurrence of `sep` (all of `text` when `sep` is absent). -/
def split_first (sep : String) (s : String) : String :=
  ⟨beforeMarker sep.data s.data⟩

/-! ### The `Configuration` object

One field per attribute the cycle methods read or write.  The parallel
per-endpoint arrays are Lean lists; in-range reads use `getD` (the loops only
run over `List.range num_urls`, where Python indexing is defined).  The
attributes `request`, `status` and `current_timestamp` (singular) are read by
`push_metrics` via `hasattr`/direct access but are never assigned anywhere in
the file after the multi-URL refactor (only `requests`, `statuses` and
`current_timestamps` are); they are embedded as `Option` fields where `none`
means "attribute absent". -/

structure Configuration : Type where
  endpoint_method : String
  endpoint_urls : List String
  endpoint_version_urls : List String
  component_ids : List Int
  num_urls : Nat
  allowed_fails : Nat
  metric_id_configured : Bool
  metric_id : Int
  default_metric_value : Rat
  latency_unit : String
  public_incidents : Int
  expectations : List Expectaction
  current_timestamps : List Int
  messages : List String
  statuses : List Nat
  requests : List (Option Response)
  trigger_updates : List Bool
  current_fails : List Nat
  incident_ids : List Int
  versions : List String
  request : Option Response
  status : Option Nat
  current_timestamp : Option Int

/-- Outcome of `requests.request(method, url, timeout=...)` for one endpoint:
either a response object, or one of the three exceptions the code catches. -/
inductive ReqOutcome : Type where
  | success (resp : Response) (timestamp : Int) : ReqOutcome
  | connectionError : ReqOutcome
  | httpError : ReqOutcome
  | timeout : ReqOutcome

/-- Outcome of the `requests.get(version_url)` call (HTTP level). -/
structure VersionResp : Type where
  status_code : Int
  text : String

/-- What the network would answer for one endpoint during `evaluate`. -/
structure EvalEnv : Type where
  outcome : ReqOutcome
  version_response : VersionResp

/-- The loop body of `Configuration.evaluate` (lines 295-333), one endpoint
index at a time.  An exception branch assigns `messages[i]`/`statuses[i]` and
then `return`s — it ends the whole loop, leaving the remaining indices
untouched.  On success: record the response and timestamp, do the version
lookup when a version URL is configured (store the text before the first
`"-->"` if the status code is exactly `requests.codes.ok` = 200, the string
`"Unknown"` otherwise), then run the expectation fold. -/
def evaluateGo (env : Nat → EvalEnv) : Configuration → List Nat → Configuration
  | c, [] => c
  | c, i :: rest =>
    match (env i).outcome with
    | .connectionError =>
        { c with
          messages := c.messages.set i
            ("The URL is unreachable: " ++ c.endpoint_method ++ " " ++ c.endpoint_urls.getD i ""),
          statuses := c.statuses.set i COMPONENT_STATUS_PARTIAL_OUTAGE }
    | .httpError =>
        { c with
          messages := c.messages.set i "Unexpected HTTP response",
          statuses := c.statuses.set i COMPONENT_STATUS_PARTIAL_OUTAGE }
    | .timeout =>
        { c with
          messages := c.messages.set i "Request timed out",
          statuses := c.statuses.set i COMPONENT_STATUS_PERFORMANCE_ISSUES }
    | .success resp ts =>
        let c1 := { c with
          requests := c.requests.set i (some resp),
          current_timestamps := c.current_timestamps.set i ts }
        let c2 :=
          if c1.endpoint_version_urls.getD i "" ≠ "" then
            if (env i).version_response.status_code = 200 then
              { c1 with versions :=
                  c1.versions.set i (split_first "-->" (env i).version_response.text) }
            else
              { c1 with versions := c1.versions.set i "Unknown" }
          else c1
        let sm := severityFold c2.expectations resp
        evaluateGo env
          { c2 with statuses := c2.statuses.set i sm.1, messages := c2.messages.set i sm.2 }
          rest

/-- `Configuration.evaluate`. -/
def Configuration.evaluate (c : Configuration) (env : Nat → EvalEnv) : Configuration :=
  evaluateGo env c (List.range c.num_urls)

/-- The loop body of `Configuration.if_trigger_update` (lines 344-357).  When
`statuses[i] != 1` the failure counter is incremented; if it is still
`<= allowed_fails` the update is suppressed and the method `return`s (ending
the loop).  In every other case the counter is reset to 0, the update is
triggered, and the loop continues. -/
def ifTriggerUpdateGo : Configuration → List Nat → Configuration
  | c, [] => c
  | c, i :: rest =>
    if c.statuses.getD i 0 ≠ 1 then
      let cf := c.current_fails.getD i 0 + 1
      let c1 := { c with current_fails := c.current_fails.set i cf }
      if cf ≤ c1.allowed_fails then
        { c1 with trigger_updates := c1.trigger_updates.set i false }
      else
        ifTriggerUpdateGo
          { c1 with
            current_fails := c1.current_fails.set i 0,
            trigger_updates := c1.trigger_updates.set i true }
          rest
    else
      ifTriggerUpdateGo
        { c with
          current_fails := c.current_fails.set i 0,
          trigger_updates := c.trigger_updates.set i true }
        rest

/-- `Configuration.if_trigger_update`. -/
def Configuration.if_trigger_update (c : Configuration) : Configuration :=
  ifTriggerUpdateGo c (List.range c.num_urls)

/-- The parameters of one `PUT {api_url}/components/{id}` call made by
`push_status`. -/
structure ComponentPush : Type where
  component_id : Int
  component_status : Nat
  description : String
  deriving DecidableEq

/-- The loop body of `Configuration.push_status` (lines 359-376): stop at the
first endpoint whose update is not triggered (`return`), otherwise emit the
component update (status plus the stored version as description).  The
response only affects logging, so no state changes. -/
def pushStatusGo (c : Configuration) : List Nat → List ComponentPush
  | [] => []
  | i :: rest =>
    if ¬ (c.trigger_updates.getD i false) then []
    else
      { component_id := c.component_ids.getD i 0,
        component_status := c.statuses.getD i 0,
        description := c.versions.getD i "" } :: pushStatusGo c rest

/-- `Configuration.push_status`. -/
def Configuration.push_status (c : Configuration) : List ComponentPush :=
  pushStatusGo c (List.range c.num_urls)

/-- Modelled from the spec: the `latency_unit` module is not under `src/`.
The spec says only that the elapsed seconds are converted to the configured
latency unit (seconds by default); the usual units are modelled. -/
def convert_to_unit (unit : String) (seconds : Rat) : Rat :=
  if unit = "ms" then seconds * 1000
  else if unit = "m" then seconds / 60
  else if unit = "h" then seconds / 3600
  else seconds

/-- The parameters of the `POST {api_url}/metrics/{id}/points` call. -/
structure MetricPush : Type where
  metric_id : Int
  value : Rat
  timestamp : Int
  deriving DecidableEq

/-- `Configuration.push_metrics` (lines 378-397): guarded by
`'metric_id' in self.data['cachet']` and `hasattr(self, 'request')`.  The body
reads the singular attributes `request`, `status` and `current_timestamp`
(absent attributes are the `Option` fields; the `getD` defaults are irrelevant
because the guard requires `request` to be present, which never happens). -/
def Configuration.push_metrics (c : Configuration) : List MetricPush :=
  if c.metric_id_configured ∧ c.request.isSome then
    match c.request with
    | some r =>
        let value :=
          if c.status.getD 1 ≠ 1 then c.default_metric_value
          else convert_to_unit c.latency_unit r.elapsed_seconds
        [{ metric_id := c.metric_id, value := value,
           timestamp := c.current_timestamp.getD 0 }]
    | none => []
  else []

/-- Whether each remote incident call would succeed (`incident_request.ok`)
and, for a creation, the id the status page would return
(`incident_request.json()['data']['id']`). -/
structure IncidentEnv : Type where
  ok : Bool
  returned_id : Int

/-- One remote incident-lifecycle call, with the parameters the code sends. -/
inductive IncidentCall : Type where
  | resolve (incident_id : Int) (visible : Int) (component_id : Int)
      (component_status : Nat) : IncidentCall
  | create (name : String) (message : String) (visible : Int) (component_id : Int)
      (component_status : Nat) : IncidentCall
  deriving DecidableEq

/-- The loop body of `Configuration.push_incident` (lines 399-440): stop at
the first endpoint whose update is not triggered (`return`).  First branch
(guard `incident_ids[i] != -1 and statuses[i] == OPERATIONAL`): PUT a resolve;
on success clear the stored id to `-1`.  Second branch (guard
`incident_ids[i] != -1 and statuses[i] != OPERATIONAL` — the source really
tests `!= -1` here too): POST a creation; on success store the returned id.
Otherwise do nothing and continue. -/
def pushIncidentGo (env : Nat → IncidentEnv) :
    Configuration → List Nat → Configuration × List IncidentCall
  | c, [] => (c, [])
  | c, i :: rest =>
    if ¬ (c.trigger_updates.getD i false) then (c, [])
    else if c.incident_ids.getD i (-1) ≠ -1 ∧ c.statuses.getD i 0 = COMPONENT_STATUS_OPERATIONAL then
      let call := IncidentCall.resolve (c.incident_ids.getD i (-1)) c.public_incidents
        (c.component_ids.getD i 0) (c.statuses.getD i 0)
      let c1 :=
        if (env i).ok then { c with incident_ids := c.incident_ids.set i (-1) } else c
      let res := pushIncidentGo env c1 rest
      (res.1, call :: res.2)
    else if c.incident_ids.getD i (-1) ≠ -1 ∧ c.statuses.getD i 0 ≠ COMPONENT_STATUS_OPERATIONAL then
      let call := IncidentCall.create "URL unavailable" (c.messages.getD i "")
        c.public_incidents (c.component_ids.getD i 0) (c.statuses.getD i 0)
      let c1 :=
        if (env i).ok then
          { c with incident_ids := c.incident_ids.set i (env i).returned_id }
        else c
      let res := pushIncidentGo env c1 rest
      (res.1, call :: res.2)
    else
      pushIncidentGo env c rest

/-- `Configuration.push_incident`: the new state and the incident calls made. -/
def Configuration.push_incident (c : Configuration) (env : Nat → IncidentEnv) :
    Configuration × List IncidentCall :=
  pushIncidentGo env c (List.range c.num_urls)

/-! ### Initialization and reachable states

`__init__` (lines 90-173) ends by initializing the per-endpoint arrays:
`current_timestamps`, `requests` and `incident_ids` to `-1`/absent, `messages`
and `versions` to `""`, `trigger_updates` to `False`, `current_fails` to `0`,
and `statuses` to the component statuses fetched from the status page
(`get_current_status`), which are an input here.  The configuration-file /
discovery plumbing (`validate`, `get_monitoring_urls`, `print_out`) only
produces the immutable fields, which are likewise inputs. -/

structure InitParams : Type where
  endpoint_method : String
  endpoint_urls : List String
  endpoint_version_urls : List String
  component_ids : List Int
  allowed_fails : Nat
  metric_id_configured : Bool
  metric_id : Int
  default_metric_value : Rat
  latency_unit : String
  public_incidents : Int
  expectations : List Expectaction
  initial_statuses : List Nat

/-- The state `Configuration.__init__` leaves behind. -/
def Configuration.init (p : InitParams) : Configuration :=
  let n := p.endpoint_urls.length
  { endpoint_method := p.endpoint_method
    endpoint_urls := p.endpoint_urls
    endpoint_version_urls := p.endpoint_version_urls
    component_ids := p.component_ids
    num_urls := n
    allowed_fails := p.allowed_fails
    metric_id_configured := p.metric_id_configured
    metric_id := p.metric_id
    default_metric_value := p.default_metric_value
    latency_unit := p.latency_unit
    public_incidents := p.public_incidents
    expectations := p.expectations
    current_timestamps := List.replicate n (-1)
    messages := List.replicate n ""
    statuses := p.initial_statuses
    requests := List.replicate n none
    trigger_updates := List.replicate n false
    current_fails := List.replicate n 0
    incident_ids := List.replicate n (-1)
    versions := List.replicate n ""
    request := none
    status := none
    current_timestamp := none }

/-- One method call of a polling cycle. -/
inductive Step : Type where
  | evaluateStep (env : Nat → EvalEnv) : Step
  | ifTriggerUpdateStep : Step
  | pushStatusStep : Step
  | pushMetricsStep : Step
  | pushIncidentStep (env : Nat → IncidentEnv) : Step

/-- The state after one method call (`push_status` and `push_metrics` only
emit HTTP calls and log; they assign no attribute). -/
def applyStep (c : Configuration) : Step → Configuration
  | .evaluateStep env => c.evaluate env
  | .ifTriggerUpdateStep => c.if_trigger_update
  | .pushStatusStep => c
  | .pushMetricsStep => c
  | .pushIncidentStep env => (c.push_incident env).1

/-- States reachable from initialization by any sequence of the five cycle
methods, under any network behavior. -/
inductive Reachable : Configuration → Prop where
  | init (p : InitParams) : Reachable (Configuration.init p)
  | step {c : Configuration} (hc : Reachable c) (s : Step) : Reachable (applyStep c s)

theorem evaluateGo_incident_ids (env : Nat → EvalEnv) :
    ∀ (l : List Nat) (c : Configuration),
      (evaluateGo env c l).incident_ids = c.incident_ids := by
  intro l
  induction l with
  | nil => intro c; rfl
  | cons i rest ih =>
      intro c
      cases houtcome : (env i).outcome with
      | connectionError => simp [evaluateGo, houtcome]
      | httpError => simp [evaluateGo, houtcome]
      | timeout => simp [evaluateGo, houtcome]
      | success resp ts =>
          simp only [evaluateGo, houtcome]
          rw [ih]
          split <;> (try split) <;> rfl

theorem evaluateGo_request (env : Nat → EvalEnv) :
    ∀ (l : List Nat) (c : Configuration),
      (evaluateGo env c l).request = c.request := by
  intro l
  induction l with
  | nil => intro c; rfl
  | cons i rest ih =>
      intro c
      cases houtcome : (env i).outcome with
      | connectionError => simp [evaluateGo, houtcome]
      | httpError => simp [evaluateGo, houtcome]
      | timeout => simp [evaluateGo, houtcome]
      | success resp ts =>
          simp only [evaluateGo, houtcome]
          rw [ih]
          split <;> (try split) <;> rfl

theorem ifTriggerUpdateGo_incident_ids :
    ∀ (l : List Nat) (c : Configuration),
      (ifTriggerUpdateGo c l).incident_ids = c.incident_ids := by
  intro l
  induction l with
  | nil => intro c; rfl
  | cons i rest ih =>
      intro c
      simp only [ifTriggerUpdateGo]
      split
      · split
        · rfl
        · rw [ih]
      · rw [ih]

theorem ifTriggerUpdateGo_request :
    ∀ (l : List Nat) (c : Configuration),
      (ifTriggerUpdateGo c l).request = c.request := by
  intro l
  induction l with
  | nil => intro c; rfl
  | cons i rest ih =>
      intro c
      simp only [ifTriggerUpdateGo]
      split
      · split
        · rfl
        · rw [ih]
      · rw [ih]

theorem pushIncidentGo_state (env : Nat → IncidentEnv) :
    ∀ (l : List Nat) (c : Configuration),
      (∀ i, c.incident_ids.getD i (-1) = -1) →
      (pushIncidentGo env c l).1 = c := by
  intro l
  induction l with
  | nil => intro c h; rfl
  | cons i rest ih =>
      intro c h
      have h1 : ¬ (c.incident_ids.getD i (-1) ≠ -1 ∧
          c.statuses.getD i 0 = COMPONENT_STATUS_OPERATIONAL) := by
        intro hcon
        exact hcon.1 (h i)
      have h2 : ¬ (c.incident_ids.getD i (-1) ≠ -1 ∧
          c.statuses.getD i 0 ≠ COMPONENT_STATUS_OPERATIONAL) := by
        intro hcon
        exact hcon.1 (h i)
      simp only [pushIncidentGo, if_neg h1, if_neg h2]
      split
      · rfl
      · exact ih c h

/-- The state invariant behind C5 and C10: every stored incident id is `-1`
and the singular `request` attribute is absent. -/
def CycleInv (c : Configuration) : Prop :=
  (∀ i, c.incident_ids.getD i (-1) = -1) ∧ c.request = none

theorem getD_replicate {α : Type} (n : Nat) (a : α) :
    ∀ i : Nat, (List.replicate n a).getD i a = a := by
  induction n with
  | zero => intro i; rfl
  | succ n ih =>
      intro i
      cases i with
      | zero => rfl
      | succ j => exact ih j

theorem reachable_inv : ∀ {c : Configuration}, Reachable c → CycleInv c := by
  intro c h
  induction h with
  | init p =>
      constructor
      · intro i
        exact getD_replicate _ _ i
      · rfl
  | step hc s ih =>
      rename_i c'
      obtain ⟨hids, hreq⟩ := ih
      cases s with
      | evaluateStep env =>
          constructor
          · intro i
            rw [show (applyStep c' (.evaluateStep env)).incident_ids = c'.incident_ids from
              evaluateGo_incident_ids env _ c']
            exact hids i
          · exact (evaluateGo_request env _ c').trans hreq
      | ifTriggerUpdateStep =>
          constructor
          · intro i
            rw [show (applyStep c' .ifTriggerUpdateStep).incident_ids = c'.incident_ids from
              ifTriggerUpdateGo_incident_ids _ c']
            exact hids i
          · exact (ifTriggerUpdateGo_request _ c').trans hreq
      | pushStatusStep => exact ⟨hids, hreq⟩
      | pushMetricsStep => exact ⟨hids, hreq⟩
      | pushIncidentStep env =>
          have hstate : (c'.push_incident env).1 = c' :=
            pushIncidentGo_state env _ c' hids
          constructor
          · intro i
            rw [show (applyStep c' (.pushIncidentStep env)).incident_ids = c'.incident_ids from
              congrArg Configuration.incident_ids hstate]
            exact hids i
          · exact (congrArg Configuration.request hstate).trans hreq

theorem getD_set_eq {α : Type} :
    ∀ (l : List α) (i : Nat) (a d : α), i < l.length → (l.set i a).getD i d = a := by
  intro l
  induction l with
  | nil => intro i a d h; exact absurd h (Nat.not_lt_zero i)
  | cons x t ih =>
      intro i a d h
      cases i with
      | zero => rfl
      | succ j => exact ih j a d (Nat.lt_of_succ_lt_succ h)

/-! ### Concrete fixtures used in the witnesses and counterexamples -/

/-- A one-endpoint start-up state. -/
def pExample : InitParams :=
  { endpoint_method := "GET"
    endpoint_urls := ["http://u0"]
    endpoint_version_urls := [""]
    component_ids := [7]
    allowed_fails := 0
    metric_id_configured := false
    metric_id := 0
    default_metric_value := 0
    latency_unit := "s"
    public_incidents := 1
    expectations := [Expectaction.httpStatus (200, 300)]
    initial_statuses := [1] }

def cInit : Configuration := Configuration.init pExample

/-- The same start-up state with a metric id configured. -/
def pMetric : InitParams := { pExample with metric_id_configured := true, metric_id := 9 }

/-- A one-endpoint state mid-run, directly after `__init__` except where noted. -/
def cBase : Configuration :=
  { endpoint_method := "GET"
    endpoint_urls := ["http://u0"]
    endpoint_version_urls := [""]
    component_ids := [7]
    num_urls := 1
    allowed_fails := 0
    metric_id_configured := false
    metric_id := 0
    default_metric_value := 0
    latency_unit := "s"
    public_incidents := 1
    expectations := [Expectaction.httpStatus (200, 300)]
    current_timestamps := [-1]
    messages := [""]
    statuses := [1]
    requests := [none]
    trigger_updates := [false]
    current_fails := [0]
    incident_ids := [-1]
    versions := [""]
    request := none
    status := none
    current_timestamp := none }

/-- An HTTP 200 response. -/
def respOk : Response := { status_code := 200, text := "OK", elapsed_seconds := 0 }

/-- Network behavior: every request returns `respOk` at time 100; the version
fetch returns 200 with an empty body. -/
def envOk : Nat → EvalEnv :=
  fun _ => { outcome := .success respOk 100, version_response := { status_code := 200, text := "" } }

/-- Every remote incident call succeeds, creations returning id 99. -/
def envIncOk : Nat → IncidentEnv := fun _ => { ok := true, returned_id := 99 }

/-- Every remote incident call fails. -/
def envIncFail : Nat → IncidentEnv := fun _ => { ok := false, returned_id := 99 }

/-! ### C8: STATUS_RANGE semantics -/

/-- C8: for a STATUS_RANGE expectation with parsed range `[min, max)` the
status is OPERATIONAL iff `min ≤ status_code < max` and PARTIAL_OUTAGE
otherwise; and parsing a single-value range string `v` yields `[v, v+1)`. -/
theorem http_status_range_spec (lo hi : Int) (r : Response) (s : List Char) (v : Int)
    (hsplit : splitChar (Char.ofNat 45) s = [s])
    (hparse : parseIntChars s = some v) :
    ((Expectaction.httpStatus (lo, hi)).get_status r = COMPONENT_STATUS_OPERATIONAL ↔
      lo ≤ r.status_code ∧ r.status_code < hi) ∧
    ((Expectaction.httpStatus (lo, hi)).get_status r = COMPONENT_STATUS_PARTIAL_OUTAGE ↔
      ¬ (lo ≤ r.status_code ∧ r.status_code < hi)) ∧
    HttpStatus.parse_range (String.mk s) = some (v, v + 1) := by
  refine ⟨?_, ?_, ?_⟩
  · by_cases h : r.status_code ≥ lo ∧ r.status_code < hi
    · simp [Expectaction.get_status, if_pos h, h]
    · simp only [Expectaction.get_status, if_neg h]
      constructor
      · intro habs
        exact absurd habs (by decide)
      · intro habs
        exact absurd habs h
  · by_cases h : r.status_code ≥ lo ∧ r.status_code < hi
    · simp only [Expectaction.get_status, if_pos h]
      constructor
      · intro habs
        exact absurd habs (by decide)
      · intro habs
        exact absurd h habs
    · simp [Expectaction.get_status, if_neg h, h]
  · show HttpStatus.parse_range (String.mk s) = some (v, v + 1)
    unfold HttpStatus.parse_range
    simp only [show (String.mk s).data = s from rfl, hsplit, List.length_cons,
      List.length_nil, beq_self_eq_true, if_pos]
    simp [hparse]

/-- Witness for C8 at range `"200-300"`'s bounds and the single-value
string `"200"` against an HTTP 200 response. -/
theorem http_status_range_spec_witness :
    (((Expectaction.httpStatus (200, 300)).get_status respOk = COMPONENT_STATUS_OPERATIONAL ↔
      (200 : Int) ≤ respOk.status_code ∧ respOk.status_code < 300) ∧
    ((Expectaction.httpStatus (200, 300)).get_status respOk = COMPONENT_STATUS_PARTIAL_OUTAGE ↔
      ¬ ((200 : Int) ≤ respOk.status_code ∧ respOk.status_code < 300)) ∧
    HttpStatus.parse_range (String.mk "200".data) = some (200, 201)) :=
  http_status_range_spec 200 300 respOk "200".data 200 (by decide) (by decide)

/-! ### C9: REGEX semantics -/

/-- C9: for a REGEX expectation the status is OPERATIONAL iff the pattern
matches a prefix of the response body starting at its beginning (anchored
match, not a search) and PARTIAL_OUTAGE otherwise; in the matching semantics
`.` matches every character, the newline included, over Unicode scalar
values. -/
theorem regex_spec (re : RE) (r : Response) :
    ((Expectaction.regex re).get_status r = COMPONENT_STATUS_OPERATIONAL ↔
      ∃ p q, r.text.data = p ++ q ∧ REMatch re p) ∧
    ((Expectaction.regex re).get_status r = COMPONENT_STATUS_PARTIAL_OUTAGE ↔
      ¬ ∃ p q, r.text.data = p ++ q ∧ REMatch re p) ∧
    (∀ c : Char, REMatch RE.dot [c]) := by
  refine ⟨?_, ?_, fun c => REMatch.dot c⟩
  · by_cases hb : re.pmatch r.text.data
    · simp only [Expectaction.get_status, if_pos hb]
      constructor
      · intro _
        exact (pmatch_iff r.text.data re).mp hb
      · intro _
        trivial
    · simp only [Expectaction.get_status, if_neg hb]
      constructor
      · intro habs
        exact absurd habs (by decide)
      · intro hex
        exact absurd ((pmatch_iff r.text.data re).mpr hex) hb
  · by_cases hb : re.pmatch r.text.data
    · simp only [Expectaction.get_status, if_pos hb]
      constructor
      · intro habs
        exact absurd habs (by decide)
      · intro hnot
        exact absurd ((pmatch_iff r.text.data re).mp hb) hnot
    · simp only [Expectaction.get_status, if_neg hb]
      constructor
      · intro _
        intro hex
        exact absurd ((pmatch_iff r.text.data re).mpr hex) hb
      · intro _
        trivial

/-! ### C10: no incident id is ever recorded -/

/-- C10: in every state reachable from initialization by any sequence of
`evaluate`, `if_trigger_update`, `push_status`, `push_metrics` and
`push_incident` calls, every stored open-incident id is still `-1`: the only
assignment of another value sits in a `push_incident` branch whose guard
already requires `incident_ids[i] != -1`. -/
theorem incident_id_always_absent (c : Configuration) (hc : Reachable c)
    (i : Nat) (hi : i < c.incident_ids.length) :
    c.incident_ids.get ⟨i, hi⟩ = -1 := by
  have h := (reachable_inv hc).1 i
  have heq : c.incident_ids.getD i (-1) = c.incident_ids.get ⟨i, hi⟩ := by
    simp [List.getD, List.getElem?_eq_getElem hi]
  exact heq ▸ h

/-- Witness for C10 at the start-up state of `pExample`. -/
theorem incident_id_always_absent_witness :
    cInit.incident_ids.get ⟨0, by decide⟩ = -1 :=
  incident_id_always_absent cInit (Reachable.init pExample) 0 (by decide)


theorem range_one_eq : List.range 1 = [0] := by decide

theorem range_two_eq : List.range 2 = [0, 1] := by decide

/-! ### C5: metric push (corrected — nothing is ever sent) -/

/-- C5 (amended): even when a metric identifier is configured and the cycle
decision is push, `push_metrics` sends nothing: its guard requires the
singular `request` attribute, which the multi-endpoint code never assigns
(only `requests` is), so in every reachable state the method emits no
metric point. -/
theorem push_metrics_sends_nothing (c : Configuration) (hc : Reachable c) :
    c.push_metrics = [] := by
  have h := (reachable_inv hc).2
  simp [Configuration.push_metrics, h]

/-- The state of `pMetric` after one evaluation cycle with an operational
response followed by `if_trigger_update`: the push decision is positive and a
metric id is configured. -/
def cMetric : Configuration := ((Configuration.init pMetric).evaluate envOk).if_trigger_update

/-- Witness for C5's amended claim at the reachable state `cMetric`. -/
theorem push_metrics_sends_nothing_witness : cMetric.push_metrics = [] :=
  push_metrics_sends_nothing cMetric
    (Reachable.step (Reachable.step (Reachable.init pMetric) (Step.evaluateStep envOk))
      Step.ifTriggerUpdateStep)

/-- Counterexample to C5 as stated: in the reachable state `cMetric` a metric
id is configured and the cycle decision is push, yet `push_metrics` sends no
latency metric point. -/
theorem push_metrics_claim_counterexample :
    cMetric.metric_id_configured = true ∧
    cMetric.trigger_updates.getD 0 false = true ∧
    cMetric.push_metrics = [] := by
  refine ⟨rfl, by decide, by decide⟩

/-! ### C4: resolve push failure and local state (corrected) -/

/-- C4 (amended): when the decision is push, an incident id is recorded and
the new status is OPERATIONAL, the local incident id is cleared only when the
remote resolve call succeeds; on a failed call the id is retained (the local
state change is withheld, not committed regardless of the push outcome). -/
theorem push_incident_clear_requires_ok (c : Configuration) (env : Nat → IncidentEnv)
    (h1 : c.num_urls = 1) (h2 : c.trigger_updates.getD 0 false = true)
    (h3 : c.incident_ids.getD 0 (-1) ≠ -1)
    (h4 : c.statuses.getD 0 0 = COMPONENT_STATUS_OPERATIONAL)
    (h5 : 0 < c.incident_ids.length) :
    ((env 0).ok = true → (c.push_incident env).1.incident_ids.getD 0 (-1) = -1) ∧
    ((env 0).ok = false → (c.push_incident env).1.incident_ids = c.incident_ids) := by
  have hguard : c.incident_ids.getD 0 (-1) ≠ -1 ∧
      c.statuses.getD 0 0 = COMPONENT_STATUS_OPERATIONAL := ⟨h3, h4⟩
  constructor
  · intro hok
    simp only [Configuration.push_incident, h1, range_one_eq, pushIncidentGo, h2,
      not_true_eq_false, if_false, if_pos hguard, hok, if_true]
    exact getD_set_eq c.incident_ids 0 (-1) (-1) h5
  · intro hnot
    simp only [Configuration.push_incident, h1, range_one_eq, pushIncidentGo, h2,
      not_true_eq_false, if_false, if_pos hguard, hnot]
    rfl

/-- A state whose only endpoint has an open incident (id 5), a positive push
decision and an OPERATIONAL evaluation. -/
def cOpenIncident : Configuration :=
  { cBase with trigger_updates := [true], incident_ids := [5] }

/-- Witness for C4's amended claim at `cOpenIncident`. -/
theorem push_incident_clear_requires_ok_witness :
    (((envIncOk 0).ok = true →
        (cOpenIncident.push_incident envIncOk).1.incident_ids.getD 0 (-1) = -1) ∧
      ((envIncOk 0).ok = false →
        (cOpenIncident.push_incident envIncOk).1.incident_ids = cOpenIncident.incident_ids)) :=
  push_incident_clear_requires_ok cOpenIncident envIncOk rfl rfl (by decide) rfl (by decide)

/-- Counterexample to C4 as stated: at `cOpenIncident`, with the remote
resolve call failing, the resolve is attempted but the local incident id is
NOT cleared — the local state does not record the intended transition. -/
theorem push_incident_no_optimistic_clear :
    cOpenIncident.trigger_updates.getD 0 false = true ∧
    cOpenIncident.incident_ids.getD 0 (-1) = 5 ∧
    cOpenIncident.statuses.getD 0 0 = COMPONENT_STATUS_OPERATIONAL ∧
    (cOpenIncident.push_incident envIncFail).2 = [IncidentCall.resolve 5 1 7 1] ∧
    (cOpenIncident.push_incident envIncFail).1.incident_ids.getD 0 (-1) = 5 := by
  decide

/-! ### C1: the OPEN action (code bug — it can never happen) -/

/-- A state whose only endpoint has no open incident (id -1), a positive push
decision and a non-operational (PARTIAL_OUTAGE) evaluation — exactly the
OPEN scenario of the spec. -/
def cNeedsOpen : Configuration :=
  { cBase with trigger_updates := [true], statuses := [3] }

/-- C1, evaluated at the failing input: with no open incident and a
non-operational status, `push_incident` POSTs nothing and records no id —
the creation branch's guard reads `incident_ids[i] != -1` although its own
comment says "This is the first time the incident is being created", so the
OPEN action required by the claim never fires. -/
theorem push_incident_open_never_fires :
    cNeedsOpen.trigger_updates.getD 0 false = true ∧
    cNeedsOpen.incident_ids.getD 0 (-1) = -1 ∧
    cNeedsOpen.statuses.getD 0 0 ≠ COMPONENT_STATUS_OPERATIONAL ∧
    (cNeedsOpen.push_incident envIncOk).2 = [] ∧
    (cNeedsOpen.push_incident envIncOk).1.incident_ids.getD 0 (-1) = -1 := by
  decide

/-! ### C2: the failure counter (corrected — reset on every push decision) -/

/-- C2 (amended): for a single-endpoint configuration, one
`if_trigger_update` call decides push exactly when the status is
OPERATIONAL or the incremented failure count exceeds `allowed_fails`; the
counter is reset to 0 exactly when push is decided (not only when the status
is OPERATIONAL), and it keeps the incremented value exactly when no push is
decided.  In particular, after a push-deciding non-operational cycle the
counter restarts from 0 rather than keeping its value. -/
theorem if_trigger_update_reset_iff_push (c : Configuration)
    (h1 : c.num_urls = 1) (ht : c.trigger_updates.length = 1)
    (hf : c.current_fails.length = 1) :
    (c.if_trigger_update.trigger_updates.getD 0 false = true ↔
      (c.statuses.getD 0 0 = COMPONENT_STATUS_OPERATIONAL ∨
        c.allowed_fails < c.current_fails.getD 0 0 + 1)) ∧
    (c.if_trigger_update.current_fails.getD 0 0 = 0 ↔
      c.if_trigger_update.trigger_updates.getD 0 false = true) ∧
    (c.if_trigger_update.trigger_updates.getD 0 false = false →
      c.if_trigger_update.current_fails.getD 0 0 = c.current_fails.getD 0 0 + 1) := by
  have hrange : c.if_trigger_update = ifTriggerUpdateGo c [0] := by
    rw [Configuration.if_trigger_update, h1, range_one_eq]
  by_cases hs : c.statuses.getD 0 0 = 1
  · have hres : c.if_trigger_update =
        { c with current_fails := c.current_fails.set 0 0,
                 trigger_updates := c.trigger_updates.set 0 true } := by
      rw [hrange]
      simp only [ifTriggerUpdateGo, if_neg (not_not_intro hs)]
    have htr : c.if_trigger_update.trigger_updates.getD 0 false = true := by
      rw [hres]
      exact getD_set_eq c.trigger_updates 0 true false (by rw [ht]; exact Nat.zero_lt_one)
    have hcf : c.if_trigger_update.current_fails.getD 0 0 = 0 := by
      rw [hres]
      exact getD_set_eq c.current_fails 0 0 0 (by rw [hf]; exact Nat.zero_lt_one)
    refine ⟨?_, ?_, ?_⟩
    · rw [htr]
      exact ⟨fun _ => Or.inl hs, fun _ => rfl⟩
    · rw [htr, hcf]
      exact iff_of_true rfl rfl
    · intro habs
      rw [htr] at habs
      cases habs
  · by_cases hcount : c.current_fails.getD 0 0 + 1 ≤ c.allowed_fails
    · have hres : c.if_trigger_update =
          { c with current_fails := c.current_fails.set 0 (c.current_fails.getD 0 0 + 1),
                   trigger_updates := c.trigger_updates.set 0 false } := by
        rw [hrange]
        simp only [ifTriggerUpdateGo, if_pos hs, if_pos hcount]
      have htr : c.if_trigger_update.trigger_updates.getD 0 false = false := by
        rw [hres]
        exact getD_set_eq c.trigger_updates 0 false false (by rw [ht]; exact Nat.zero_lt_one)
      have hcf : c.if_trigger_update.current_fails.getD 0 0 =
          c.current_fails.getD 0 0 + 1 := by
        rw [hres]
        exact getD_set_eq c.current_fails 0 _ 0 (by rw [hf]; exact Nat.zero_lt_one)
      refine ⟨?_, ?_, ?_⟩
      · rw [htr]
        constructor
        · intro habs
          cases habs
        · intro hor
          rcases hor with hop | hgt
          · exact absurd hop hs
          · exact absurd hcount (Nat.not_le_of_lt hgt)
      · rw [htr, hcf]
        constructor
        · intro habs
          exact absurd habs (Nat.succ_ne_zero _)
        · intro habs
          cases habs
      · intro _
        exact hcf
    · have hres : c.if_trigger_update =
          { c with
            current_fails :=
              (c.current_fails.set 0 (c.current_fails.getD 0 0 + 1)).set 0 0,
            trigger_updates := c.trigger_updates.set 0 true } := by
        rw [hrange]
        simp only [ifTriggerUpdateGo, if_pos hs, if_neg hcount]
      have htr : c.if_trigger_update.trigger_updates.getD 0 false = true := by
        rw [hres]
        exact getD_set_eq c.trigger_updates 0 true false (by rw [ht]; exact Nat.zero_lt_one)
      have hcf : c.if_trigger_update.current_fails.getD 0 0 = 0 := by
        rw [hres]
        refine getD_set_eq _ 0 0 0 ?_
        rw [List.length_set, hf]
        exact Nat.zero_lt_one
      refine ⟨?_, ?_, ?_⟩
      · rw [htr]
        exact ⟨fun _ => Or.inr (Nat.lt_of_not_le hcount), fun _ => rfl⟩
      · rw [htr, hcf]
        exact iff_of_true rfl rfl
      · intro habs
        rw [htr] at habs
        cases habs
  
/-- A one-endpoint state in a non-operational cycle whose incremented failure
count (2) exceeds `allowed_fails` (1): push is decided. -/
def cDebounce : Configuration :=
  { cBase with allowed_fails := 1, statuses := [3], current_fails := [1] }

/-- Witness for C2's amended claim at `cDebounce`. -/
theorem if_trigger_update_reset_iff_push_witness :
    ((cDebounce.if_trigger_update.trigger_updates.getD 0 false = true ↔
      (cDebounce.statuses.getD 0 0 = COMPONENT_STATUS_OPERATIONAL ∨
        cDebounce.allowed_fails < cDebounce.current_fails.getD 0 0 + 1)) ∧
    (cDebounce.if_trigger_update.current_fails.getD 0 0 = 0 ↔
      cDebounce.if_trigger_update.trigger_updates.getD 0 false = true) ∧
    (cDebounce.if_trigger_update.trigger_updates.getD 0 false = false →
      cDebounce.if_trigger_update.current_fails.getD 0 0 =
        cDebounce.current_fails.getD 0 0 + 1)) :=
  if_trigger_update_reset_iff_push cDebounce rfl rfl rfl

/-- Counterexample to C2 as stated: at `cDebounce` the evaluated status is
non-operational and the incremented count (2) exceeds the threshold (1), so
push is decided — yet the counter is reset to 0 instead of keeping its
value, contradicting "reset to 0 exactly when the evaluated status is
OPERATIONAL; ... the counter keeps its value". -/
theorem failure_counter_reset_on_nonoperational_push :
    cDebounce.statuses.getD 0 0 ≠ COMPONENT_STATUS_OPERATIONAL ∧
    cDebounce.allowed_fails < cDebounce.current_fails.getD 0 0 + 1 ∧
    cDebounce.if_trigger_update.trigger_updates.getD 0 false = true ∧
    cDebounce.if_trigger_update.current_fails.getD 0 0 = 0 := by
  decide

/-! ### C3: transport failure aborts the whole cycle (code bug) -/

/-- A two-endpoint state right after start-up (endpoint 1's component status
begins at MAJOR_OUTAGE so that any evaluation of it would be visible). -/
def cTwo : Configuration :=
  { cBase with
    num_urls := 2
    endpoint_urls := ["http://u0", "http://u1"]
    endpoint_version_urls := ["", ""]
    component_ids := [7, 8]
    current_timestamps := [-1, -1]
    messages := ["", ""]
    statuses := [1, 4]
    requests := [none, none]
    trigger_updates := [false, false]
    current_fails := [0, 0]
    incident_ids := [-1, -1]
    versions := ["", ""] }

/-- Endpoint 0's request raises `ConnectionError`; endpoint 1 would answer
HTTP 200. -/
def envFirstDown : Nat → EvalEnv :=
  fun i =>
    if i = 0 then
      { outcome := .connectionError, version_response := { status_code := 200, text := "" } }
    else
      { outcome := .success respOk 100, version_response := { status_code := 200, text := "" } }

/-- C3, evaluated at the failing input: endpoint 0's connection failure is
mapped to PARTIAL_OUTAGE with the descriptive message and short-circuits its
own cycle (no response stored, no expectation run) — but the `return` in the
`except` branch exits the whole loop, so endpoint 1 is never evaluated (its
response, timestamp, status and message are all left untouched), contradicting
the claim that every other endpoint is still processed. -/
theorem evaluate_aborts_cycle_on_transport_failure :
    (cTwo.evaluate envFirstDown).statuses.getD 0 0 = COMPONENT_STATUS_PARTIAL_OUTAGE ∧
    (cTwo.evaluate envFirstDown).messages.getD 0 "" = "The URL is unreachable: GET http://u0" ∧
    (cTwo.evaluate envFirstDown).requests.getD 0 none = none ∧
    (cTwo.evaluate envFirstDown).versions.getD 0 "" = "" ∧
    (cTwo.evaluate envFirstDown).requests.getD 1 none = none ∧
    (cTwo.evaluate envFirstDown).current_timestamps.getD 1 0 = -1 ∧
    (cTwo.evaluate envFirstDown).statuses.getD 1 0 = COMPONENT_STATUS_MAJOR_OUTAGE ∧
    (cTwo.evaluate envFirstDown).messages.getD 1 "" = "" := by
  decide

/-! ### C6: best-effort version lookup (corrected) -/

/-- C6 (amended): with a version URL configured and a successful primary
request, the stored version is the substring of the fetched text before the
first `"-->"` exactly when the version fetch returns status code 200, and the
sentinel `"Unknown"` (capital U) for every other status code — including
other 2xx success codes; either way the version-fetch status never fails the
evaluation: the expectation fold still runs and the endpoint's status and
message are still computed. -/
theorem version_lookup_spec (c : Configuration) (env : Nat → EvalEnv)
    (h1 : c.num_urls = 1) (hurl : c.endpoint_version_urls.getD 0 "" ≠ "")
    (hlv : c.versions.length = 1) (hls : c.statuses.length = 1) (hlm : c.messages.length = 1)
    (resp : Response) (ts : Int) (hout : (env 0).outcome = ReqOutcome.success resp ts) :
    ((env 0).version_response.status_code = 200 →
      (c.evaluate env).versions.getD 0 "" = split_first "-->" (env 0).version_response.text) ∧
    ((env 0).version_response.status_code ≠ 200 →
      (c.evaluate env).versions.getD 0 "" = "Unknown") ∧
    (c.evaluate env).statuses.getD 0 0 = (severityFold c.expectations resp).1 ∧
    (c.evaluate env).messages.getD 0 "" = (severityFold c.expectations resp).2 := by
  have hrange : c.evaluate env = evaluateGo env c [0] := by
    rw [Configuration.evaluate, h1, range_one_eq]
  by_cases hst : (env 0).version_response.status_code = 200
  · have hres : c.evaluate env =
        { c with
          requests := c.requests.set 0 (some resp),
          current_timestamps := c.current_timestamps.set 0 ts,
          versions := c.versions.set 0 (split_first "-->" (env 0).version_response.text),
          statuses := c.statuses.set 0 (severityFold c.expectations resp).1,
          messages := c.messages.set 0 (severityFold c.expectations resp).2 } := by
      rw [hrange]
      simp only [evaluateGo, hout, if_pos hurl, if_pos hst]
    refine ⟨?_, ?_, ?_, ?_⟩
    · intro _
      rw [hres]
      exact getD_set_eq c.versions 0 _ "" (by rw [hlv]; exact Nat.zero_lt_one)
    · intro habs
      exact absurd hst habs
    · rw [hres]
      exact getD_set_eq c.statuses 0 _ 0 (by rw [hls]; exact Nat.zero_lt_one)
    · rw [hres]
      exact getD_set_eq c.messages 0 _ "" (by rw [hlm]; exact Nat.zero_lt_one)
  · have hres : c.evaluate env =
        { c with
          requests := c.requests.set 0 (some resp),
          current_timestamps := c.current_timestamps.set 0 ts,
          versions := c.versions.set 0 "Unknown",
          statuses := c.statuses.set 0 (severityFold c.expectations resp).1,
          messages := c.messages.set 0 (severityFold c.expectations resp).2 } := by
      rw [hrange]
      simp only [evaluateGo, hout, if_pos hurl, if_neg hst]
    refine ⟨?_, ?_, ?_, ?_⟩
    · intro habs
      exact absurd habs hst
    · intro _
      rw [hres]
      exact getD_set_eq c.versions 0 _ "" (by rw [hlv]; exact Nat.zero_lt_one)
    · rw [hres]
      exact getD_set_eq c.statuses 0 _ 0 (by rw [hls]; exact Nat.zero_lt_one)
    · rw [hres]
      exact getD_set_eq c.messages 0 _ "" (by rw [hlm]; exact Nat.zero_lt_one)

/-- `cBase` with a version URL configured. -/
def cVersioned : Configuration := { cBase with endpoint_version_urls := ["http://v"] }

/-- The primary request answers HTTP 200; the version fetch answers the given
status code and body. -/
def envVer (code : Int) (body : String) : Nat → EvalEnv :=
  fun _ => { outcome := .success respOk 100,
             version_response := { status_code := code, text := body } }

/-- Witness for C6's amended claim at `cVersioned` with a 200 version fetch. -/
theorem version_lookup_spec_witness :
    ((((envVer 200 "1.2.3-->build20") 0).version_response.status_code = 200 →
      (cVersioned.evaluate (envVer 200 "1.2.3-->build20")).versions.getD 0 "" =
        split_first "-->" (((envVer 200 "1.2.3-->build20") 0).version_response.text)) ∧
    ((((envVer 200 "1.2.3-->build20") 0).version_response.status_code ≠ 200 →
      (cVersioned.evaluate (envVer 200 "1.2.3-->build20")).versions.getD 0 "" = "Unknown")) ∧
    (cVersioned.evaluate (envVer 200 "1.2.3-->build20")).statuses.getD 0 0 =
      (severityFold cVersioned.expectations respOk).1 ∧
    (cVersioned.evaluate (envVer 200 "1.2.3-->build20")).messages.getD 0 "" =
      (severityFold cVersioned.expectations respOk).2) :=
  version_lookup_spec cVersioned (envVer 200 "1.2.3-->build20") rfl (by decide)
    rfl rfl rfl respOk 100 rfl

/-- Counterexample to C6 as stated: a version fetch answering 201 is an HTTP
success, yet the code stores `"Unknown"` rather than the substring before the
delimiter (`"1.2.3"`) because it compares to `requests.codes.ok` = 200 only;
and on a genuinely failed fetch (500) the stored sentinel is `"Unknown"`, not
the claimed `"unknown"`. -/
theorem version_sentinel_counterexample :
    (cVersioned.evaluate (envVer 201 "1.2.3-->build20")).versions.getD 0 "" = "Unknown" ∧
    split_first "-->" "1.2.3-->build20" = "1.2.3" ∧
    ("Unknown" : String) ≠ "1.2.3" ∧
    (cVersioned.evaluate (envVer 500 "oops")).versions.getD 0 "" = "Unknown" ∧
    ("Unknown" : String) ≠ "unknown" := by
  decide

/-! ### C7: the severity fold (corrected) -/

/-- C7 (amended): the fold starts from OPERATIONAL and replaces the running
worst status and message only when an expectation's status is strictly
greater; hence the final status is the maximum of OPERATIONAL and all
expectation statuses; when that maximum is strictly worse than OPERATIONAL
the final message is that of the earliest expectation attaining it, and when
every expectation is OPERATIONAL the final message is the empty string (not
any expectation's message); for one OPERATIONAL plus one PARTIAL_OUTAGE
expectation the result is PARTIAL_OUTAGE with the failing expectation's
message in either declaration order. -/
theorem severity_fold_spec (es : List Expectaction) (r : Response) :
    ((severityFold es r).1 =
      (es.map (fun e => e.get_status r)).foldl max COMPONENT_STATUS_OPERATIONAL) ∧
    ((severityFold es r).1 = COMPONENT_STATUS_OPERATIONAL → (severityFold es r).2 = "") ∧
    (COMPONENT_STATUS_OPERATIONAL < (severityFold es r).1 →
      ∃ e, es.find? (fun e => e.get_status r == (severityFold es r).1) = some e ∧
        (severityFold es r).2 = e.get_message r) ∧
    (∀ e1 e2 : Expectaction,
      e1.get_status r = COMPONENT_STATUS_OPERATIONAL →
      e2.get_status r = COMPONENT_STATUS_PARTIAL_OUTAGE →
      severityFold [e1, e2] r = (COMPONENT_STATUS_PARTIAL_OUTAGE, e2.get_message r) ∧
      severityFold [e2, e1] r = (COMPONENT_STATUS_PARTIAL_OUTAGE, e2.get_message r)) := by
  refine ⟨?_, ?_, ?_, ?_⟩
  · exact severityFold_fst r es (COMPONENT_STATUS_OPERATIONAL, "")
  · intro h
    exact congrArg Prod.snd
      (severityFold_eq_of_fst_eq r es (COMPONENT_STATUS_OPERATIONAL, "") h)
  · intro h
    exact severityFold_message_of_lt r es (COMPONENT_STATUS_OPERATIONAL, "") h
  · intro e1 e2 h1 h2
    constructor
    · simp [severityFold, severityStep, h1, h2,
        COMPONENT_STATUS_OPERATIONAL, COMPONENT_STATUS_PARTIAL_OUTAGE]
    · simp [severityFold, severityStep, h1, h2,
        COMPONENT_STATUS_OPERATIONAL, COMPONENT_STATUS_PARTIAL_OUTAGE]

/-- The STATUS_RANGE expectation `[200, 300)`. -/
def eRange : Expectaction := Expectaction.httpStatus (200, 300)

/-- Counterexample to C7 as stated: with one expectation that is OPERATIONAL
on the response, the maximum status is attained by that (earliest)
expectation, yet the fold's final message is the initial empty string, not
that expectation's message. -/
theorem fold_message_not_earliest_on_operational :
    severityFold [eRange] respOk = (COMPONENT_STATUS_OPERATIONAL, "") ∧
    List.find? (fun e => e.get_status respOk == (severityFold [eRange] respOk).1) [eRange] =
      some eRange ∧
    eRange.get_message respOk ≠ (severityFold [eRange] respOk).2 := by
  decide
